import Mathlib

/-!
Verification of the `Bigghead/Animations` repository (three browser 3D demos)
against its natural-language specification.

Shallow embedding conventions:
* JavaScript numbers are modelled as rationals (`ℚ`); integer-valued results as `Int`.
* `Math.random()` outcomes are passed in explicitly as rational arguments `r`
  with `0 ≤ r < 1`, or as streams of draws.
* The `three.js` scene graph is modelled as bookkeeping lists; meshes are
  records of the fields the scripts read or write.
-/

namespace Animations

/-- A 3-component vector (`three.Vector3`), components as rationals. -/
structure V3 where
  x : ℚ
  y : ℚ
  z : ℚ
deriving DecidableEq

/-- A quaternion (`three.Quaternion`), components as rationals. -/
structure Quat where
  x : ℚ
  y : ℚ
  z : ℚ
  w : ℚ
deriving DecidableEq

/-! ## Worker library (`src/unnamed/part_001`, the bouncy-bois worker-side lib)

```ts
export const floorWidth = 12;
const getRandomNumber = (min, max) => Math.floor(Math.random() * (max - min + 1)) + min;
export const buildRandomVertexPosition = () => [
  getRandomNumber(-floorWidth, floorWidth),
  getRandomNumber(12, 20),
  getRandomNumber(-floorWidth, floorWidth),
];
```
-/

/-- `export const floorWidth = 12`. -/
def floorWidth : Int := 12

/-- `getRandomNumber(min, max)`: `Math.floor(Math.random() * (max - min + 1)) + min`,
with the `Math.random()` outcome `r` made explicit. -/
def getRandomNumber (r : ℚ) (min max : Int) : Int :=
  ⌊r * ((max : ℚ) - (min : ℚ) + 1)⌋ + min

/-- `buildRandomVertexPosition()`, with the three `Math.random()` outcomes explicit. -/
def buildRandomVertexPosition (r₁ r₂ r₃ : ℚ) : Int × Int × Int :=
  (getRandomNumber r₁ (-floorWidth) floorWidth,
   getRandomNumber r₂ 12 20,
   getRandomNumber r₃ (-floorWidth) floorWidth)

/-- For `0 ≤ r < 1`, `getRandomNumber r min max` lands in `[min, max]` (for `min ≤ max`). -/
theorem getRandomNumber_mem (r : ℚ) (min max : Int) (h0 : 0 ≤ r) (h1 : r < 1)
    (hmm : min ≤ max) : min ≤ getRandomNumber r min max ∧ getRandomNumber r min max ≤ max := by
  unfold getRandomNumber
  have hspan : (1 : ℚ) ≤ (max : ℚ) - (min : ℚ) + 1 := by
    have : (min : ℚ) ≤ (max : ℚ) := by exact_mod_cast hmm
    linarith
  constructor
  · have hfl : (0 : Int) ≤ ⌊r * ((max : ℚ) - (min : ℚ) + 1)⌋ := by
      apply Int.floor_nonneg.mpr
      exact mul_nonneg h0 (by linarith)
    omega
  · have hlt : r * ((max : ℚ) - (min : ℚ) + 1) < (max : ℚ) - (min : ℚ) + 1 := by
      nlinarith
    have : ⌊r * ((max : ℚ) - (min : ℚ) + 1)⌋ < max - min + 1 := by
      apply Int.floor_lt.mpr
      push_cast
      linarith
    omega

/-- C10: every value returned by `buildRandomVertexPosition` is a triple of integers
(the Lean codomain `Int × Int × Int` reflects that `Math.floor` plus an integer is an
integer) with the x and z components in `[-floorWidth, floorWidth] = [-12, 12]` and the
y component in `[12, 20]`, for every outcome of the underlying random draws
(`0 ≤ rᵢ < 1`). -/
theorem buildRandomVertexPosition_range (r₁ r₂ r₃ : ℚ)
    (h₁0 : 0 ≤ r₁) (h₁1 : r₁ < 1) (h₂0 : 0 ≤ r₂) (h₂1 : r₂ < 1)
    (h₃0 : 0 ≤ r₃) (h₃1 : r₃ < 1) :
    (-floorWidth ≤ (buildRandomVertexPosition r₁ r₂ r₃).1 ∧
      (buildRandomVertexPosition r₁ r₂ r₃).1 ≤ floorWidth) ∧
    (12 ≤ (buildRandomVertexPosition r₁ r₂ r₃).2.1 ∧
      (buildRandomVertexPosition r₁ r₂ r₃).2.1 ≤ 20) ∧
    (-floorWidth ≤ (buildRandomVertexPosition r₁ r₂ r₃).2.2 ∧
      (buildRandomVertexPosition r₁ r₂ r₃).2.2 ≤ floorWidth) := by
  refine ⟨?_, ?_, ?_⟩
  · exact getRandomNumber_mem r₁ (-floorWidth) floorWidth h₁0 h₁1 (by decide)
  · exact getRandomNumber_mem r₂ 12 20 h₂0 h₂1 (by decide)
  · exact getRandomNumber_mem r₃ (-floorWidth) floorWidth h₃0 h₃1 (by decide)

/-- Witness for `buildRandomVertexPosition_range` at concrete random draws. -/
theorem buildRandomVertexPosition_range_witness :
    ((0 : ℚ) ≤ 1/2 ∧ (1/2 : ℚ) < 1) ∧
    ((-floorWidth ≤ (buildRandomVertexPosition (1/2) (1/2) (1/2)).1 ∧
      (buildRandomVertexPosition (1/2) (1/2) (1/2)).1 ≤ floorWidth) ∧
    (12 ≤ (buildRandomVertexPosition (1/2) (1/2) (1/2)).2.1 ∧
      (buildRandomVertexPosition (1/2) (1/2) (1/2)).2.1 ≤ 20) ∧
    (-floorWidth ≤ (buildRandomVertexPosition (1/2) (1/2) (1/2)).2.2 ∧
      (buildRandomVertexPosition (1/2) (1/2) (1/2)).2.2 ≤ floorWidth)) :=
  ⟨⟨by norm_num, by norm_num⟩,
    buildRandomVertexPosition_range (1/2) (1/2) (1/2)
      (by norm_num) (by norm_num) (by norm_num) (by norm_num) (by norm_num) (by norm_num)⟩

/-! ## Font/geometry placement demo (`src/fontloading-texture/src/utils.ts`)

```ts
const getRandomVertex = (num) => (Math.random() - 0.5) * num;
const positions = [{ position: new three.Vector3(0, 0, 0) }];
function hasOverlapNeighbor(pos, minDistance = 5) {
  for (let p of positions) {
    const distance = pos.distanceTo(p.position);
    if (distance < minDistance) return true;
  }
  return false;
}
export function renderRandomizedGeometry({ amount, geometry, material }) {
  const geometryGroup = new three.Group();
  for (let i = 0; i <= amount; i++) {
    const mesh = new three.Mesh(geometry, material);
    do { position = new three.Vector3(...) } while (hasOverlapNeighbor(position));
    mesh.position.copy(position);
    mesh.rotation.x = Math.PI * Math.random();
    mesh.rotation.y = Math.PI * Math.random();
    positions.push({ position });
    geometryGroup.add(mesh);
  }
  return geometryGroup;
}
```
-/

namespace FontDemo

/-- `getRandomVertex(num)` with the random outcome `r` made explicit. -/
def getRandomVertex (r : ℚ) (num : ℚ) : ℚ :=
  (r - 1/2) * num

/-- Squared Euclidean distance between two `Vector3`s. The source compares the
Euclidean distance `pos.distanceTo(p.position) < minDistance`; both sides are
nonnegative, so this is equivalent to `distSq pos p < minDistance²`, which keeps
the embedding inside `ℚ`. -/
def distSq (a b : V3) : ℚ :=
  (a.x - b.x) * (a.x - b.x) + (a.y - b.y) * (a.y - b.y) + (a.z - b.z) * (a.z - b.z)

/-- `hasOverlapNeighbor(pos, minDistance)`: scan of the module-level `positions`
list (passed explicitly), `true` iff some recorded position is strictly closer
than `minDistance` (squared comparison, see `distSq`). The source default for
`minDistance` is `5`; call sites below pass `5` explicitly. -/
def hasOverlapNeighbor (positions : List V3) (pos : V3) (minDistance : ℚ) : Bool :=
  positions.any (fun p => decide (distSq pos p < minDistance * minDistance))

/-- The module-level `positions` list as initialised: the origin entry reserved
for the text geometry. -/
def initialPositions : List V3 :=
  [⟨0, 0, 0⟩]

/-- One loop iteration's worth of random draws: the successive `Vector3`
candidates produced by the `do`/`while` body, and the two `Math.random()`
outcomes used for the rotations. -/
structure Draw where
  proposals : List V3
  rotX : ℚ
  rotY : ℚ
deriving DecidableEq

/-- The `do { position = ... } while (hasOverlapNeighbor(position))` loop:
return the first proposed position that has no overlapping neighbor. `none`
models exhausting the supplied stream of draws (the source would keep
drawing). -/
def drawPosition (positions : List V3) : List V3 → Option V3
  | [] => none
  | p :: rest => if hasOverlapNeighbor positions p 5 then drawPosition positions rest else some p

/-- A mesh placed by `renderRandomizedGeometry`: shared geometry/material plus the
per-mesh transform. The source sets `rotation.x = Math.PI * r`; the `π` scaling is
irrational and irrelevant to every claim, so the raw draw `r` is stored. -/
structure GMesh where
  geometry : String
  material : String
  position : V3
  rotationX : ℚ
  rotationY : ℚ
deriving DecidableEq

/-- The `for (let i = 0; i <= amount; i++)` loop of `renderRandomizedGeometry`,
with the iteration count made explicit (`amount + 1` at the call site). Carries
the module-level `positions` list and the accumulated `geometryGroup`. -/
def renderLoop (geometry material : String) :
    Nat → List Draw → List V3 → List GMesh → Option (List GMesh × List V3)
  | 0, _, positions, group => some (group, positions)
  | _ + 1, [], _, _ => none
  | n + 1, d :: rest, positions, group =>
    match drawPosition positions d.proposals with
    | none => none
    | some pos =>
      renderLoop geometry material n rest (positions ++ [pos])
        (group ++ [⟨geometry, material, pos, d.rotX, d.rotY⟩])

/-- `renderRandomizedGeometry({ amount, geometry, material })`: the loop body runs
for `i = 0 .. amount` inclusive, i.e. `amount + 1` times. `positions` is the
module-level list at entry; the result is the returned `Group` (as its mesh list)
together with the updated module-level `positions` list. -/
def renderRandomizedGeometry (amount : Nat) (geometry material : String)
    (draws : List Draw) (positions : List V3) : Option (List GMesh × List V3) :=
  renderLoop geometry material (amount + 1) draws positions []

theorem distSq_comm (a b : V3) : distSq a b = distSq b a := by
  unfold distSq; ring

theorem renderLoop_length (g m : String) (n : Nat) (draws : List Draw)
    (positions : List V3) (acc group : List GMesh) (posOut : List V3)
    (h : renderLoop g m n draws positions acc = some (group, posOut)) :
    group.length = acc.length + n ∧
      ∀ mesh ∈ group, mesh ∈ acc ∨ (mesh.geometry = g ∧ mesh.material = m) := by
  induction n generalizing draws positions acc with
  | zero =>
    simp only [renderLoop, Option.some.injEq, Prod.mk.injEq] at h
    obtain ⟨rfl, rfl⟩ := h
    exact ⟨rfl, fun mesh hm => Or.inl hm⟩
  | succ n ih =>
    cases draws with
    | nil => simp [renderLoop] at h
    | cons d rest =>
      simp only [renderLoop] at h
      cases hd : drawPosition positions d.proposals with
      | none => rw [hd] at h; exact absurd h (by simp)
      | some pos =>
        rw [hd] at h
        obtain ⟨hlen, hmem⟩ := ih rest (positions ++ [pos])
          (acc ++ [⟨g, m, pos, d.rotX, d.rotY⟩]) h
        constructor
        · simp only [List.length_append, List.length_singleton] at hlen
          omega
        · intro mesh hm
          rcases hmem mesh hm with hin | hprop
          · rcases List.mem_append.mp hin with hacc | hnew
            · exact Or.inl hacc
            · have : mesh = (⟨g, m, pos, d.rotX, d.rotY⟩ : GMesh) := by
                simpa using hnew
              subst this
              exact Or.inr ⟨rfl, rfl⟩
          · exact Or.inr hprop

/-- C8: for every call to `renderRandomizedGeometry` with `amount ≥ 0` (here
`amount : ℕ`) that completes, the returned `Group` contains exactly `amount + 1`
meshes — the placement loop bound `i <= amount` is inclusive — and each mesh
shares the `geometry` and `material` passed in the arguments. -/
theorem renderRandomizedGeometry_count (amount : Nat) (g m : String) (draws : List Draw)
    (positions : List V3) (group : List GMesh) (positionsOut : List V3)
    (h : renderRandomizedGeometry amount g m draws positions = some (group, positionsOut)) :
    group.length = amount + 1 ∧ ∀ mesh ∈ group, mesh.geometry = g ∧ mesh.material = m := by
  obtain ⟨hlen, hmem⟩ :=
    renderLoop_length g m (amount + 1) draws positions [] group positionsOut h
  refine ⟨by simpa using hlen, fun mesh hm => ?_⟩
  rcases hmem mesh hm with hin | hprop
  · exact absurd hin (List.not_mem_nil mesh)
  · exact hprop

/-- Concrete draw stream used by the witnesses: two iterations, each first
proposal already far from everything placed before it. -/
def demoDraws : List Draw :=
  [⟨[⟨10, 0, 0⟩], 0, 0⟩, ⟨[⟨0, 10, 0⟩], 0, 0⟩]

/-- The group produced by `renderRandomizedGeometry 1 _ _ demoDraws initialPositions`. -/
def demoGroup : List GMesh :=
  [⟨"torus", "matcap", ⟨10, 0, 0⟩, 0, 0⟩, ⟨"torus", "matcap", ⟨0, 10, 0⟩, 0, 0⟩]

/-- The `positions` list after that call. -/
def demoPositions : List V3 :=
  [⟨0, 0, 0⟩, ⟨10, 0, 0⟩, ⟨0, 10, 0⟩]

/-- The concrete run used by the witnesses evaluates as expected. -/
theorem demo_run_eq :
    renderRandomizedGeometry 1 "torus" "matcap" demoDraws initialPositions =
      some (demoGroup, demoPositions) := by
  norm_num [renderRandomizedGeometry, renderLoop, drawPosition, hasOverlapNeighbor,
    distSq, demoDraws, demoGroup, demoPositions, initialPositions]

/-- Witness for `renderRandomizedGeometry_count` on a concrete run. -/
theorem renderRandomizedGeometry_count_witness :
    renderRandomizedGeometry 1 "torus" "matcap" demoDraws initialPositions =
      some (demoGroup, demoPositions) ∧ demoGroup.length = 1 + 1 :=
  ⟨demo_run_eq, (renderRandomizedGeometry_count 1 "torus" "matcap" demoDraws
      initialPositions demoGroup demoPositions demo_run_eq).1⟩

/-- Pairwise separation of recorded positions: every two entries are at
(squared) distance at least `25 = 5²`, i.e. Euclidean distance at least `5`. -/
def separated (l : List V3) : Prop :=
  l.Pairwise (fun a b => 25 ≤ distSq a b)

/-- A position accepted by the `do`/`while` loop is at (squared) distance at
least `25` from every position already recorded. -/
theorem drawPosition_far (positions props : List V3) (pos : V3)
    (h : drawPosition positions props = some pos) :
    ∀ q ∈ positions, 25 ≤ distSq pos q := by
  induction props with
  | nil => simp [drawPosition] at h
  | cons p rest ih =>
    simp only [drawPosition] at h
    by_cases hov : hasOverlapNeighbor positions p 5
    · rw [if_pos hov] at h
      exact ih h
    · rw [if_neg hov] at h
      have hpe : p = pos := by simpa using h
      subst hpe
      intro q hq
      by_contra hlt
      push_neg at hlt
      apply hov
      unfold hasOverlapNeighbor
      rw [List.any_eq_true]
      refine ⟨q, hq, ?_⟩
      rw [decide_eq_true_eq]
      linarith

theorem renderLoop_separated (g m : String) (n : Nat) (draws : List Draw)
    (positions : List V3) (acc group : List GMesh) (posOut : List V3)
    (hsep : separated positions)
    (h : renderLoop g m n draws positions acc = some (group, posOut)) :
    separated posOut ∧ ∃ t, posOut = positions ++ t := by
  induction n generalizing draws positions acc with
  | zero =>
    simp only [renderLoop, Option.some.injEq, Prod.mk.injEq] at h
    obtain ⟨rfl, rfl⟩ := h
    exact ⟨hsep, [], by simp⟩
  | succ n ih =>
    cases draws with
    | nil => simp [renderLoop] at h
    | cons d rest =>
      simp only [renderLoop] at h
      cases hd : drawPosition positions d.proposals with
      | none => rw [hd] at h; exact absurd h (by simp)
      | some pos =>
        rw [hd] at h
        have hfar := drawPosition_far positions d.proposals pos hd
        have hsep' : separated (positions ++ [pos]) := by
          unfold separated
          rw [List.pairwise_append]
          refine ⟨hsep, List.pairwise_singleton _ _, ?_⟩
          intro a ha b hb
          have hb' : b = pos := by simpa using hb
          subst hb'
          rw [distSq_comm]
          exact hfar a ha
        obtain ⟨hsepOut, t, ht⟩ := ih rest (positions ++ [pos])
          (acc ++ [⟨g, m, pos, d.rotX, d.rotY⟩]) hsep' h
        exact ⟨hsepOut, pos :: t, by simpa using ht⟩

/-- C9: every position appended to the module-level `positions` list by
`renderRandomizedGeometry` is, at the moment it is accepted, at Euclidean
distance at least `5` (squared distance at least `25`) from every position
already in the list — including the origin entry reserved for the text
geometry; hence, starting from a pairwise-separated list, the list after any
call (and after any sequence of calls, by composing) is pairwise separated,
and the previous entries are preserved as a prefix. -/
theorem renderRandomizedGeometry_separated (amount : Nat) (g m : String)
    (draws : List Draw) (positions : List V3) (group : List GMesh) (positionsOut : List V3)
    (hsep : separated positions)
    (h : renderRandomizedGeometry amount g m draws positions = some (group, positionsOut)) :
    separated positionsOut ∧ ∃ t, positionsOut = positions ++ t :=
  renderLoop_separated g m (amount + 1) draws positions [] group positionsOut hsep h

/-- Witness for `renderRandomizedGeometry_separated` on a concrete run starting
from the module-level initial list. -/
theorem renderRandomizedGeometry_separated_witness :
    separated initialPositions ∧
      renderRandomizedGeometry 1 "torus" "matcap" demoDraws initialPositions =
        some (demoGroup, demoPositions) ∧
      separated demoPositions :=
  ⟨by norm_num [separated, initialPositions], demo_run_eq,
    (renderRandomizedGeometry_separated 1 "torus" "matcap" demoDraws initialPositions
      demoGroup demoPositions (by norm_num [separated, initialPositions]) demo_run_eq).1⟩

end FontDemo

/-! ## Bouncy-balls demo, main thread (`src/bouncy-bois/src/main.ts`)

The main thread keeps `worldObjects : Map<string, WorldObjects>` (entries
`{id, geometry, mesh}` keyed by the object's own id — every `set` call in the
source uses `threeMesh.id` as the key), a `meshPool` array, the `three.js`
scene, and posts commands to the physics worker. Messages from the worker are
dispatched on their `type` field. The embedding:

* `worldObjects` is an association list of `WObj` keyed by the `id` field;
* the scene is the list of ids of the meshes added to it (`floor` and helpers
  are tracked separately / irrelevant to the claims);
* `disposeMesh` calls are recorded in a `disposed` list;
* messages posted via `worker.postMessage` are appended to an `outbox`.
-/

namespace BouncyBois

/-- The geometry kinds `createMesh` / `createGeometry` accept. -/
inductive GeomKind where
  | sphere
  | cone
  | box
deriving DecidableEq

/-- The fields of a `three.Mesh` that `main.ts` reads or writes: position,
quaternion, uniform scale (`mesh.scale.x`), and visibility. -/
structure MeshState where
  position : V3
  quaternion : Quat
  scale : ℚ
  visible : Bool
deriving DecidableEq

/-- A `WorldObjects` record: `{ id, geometry, mesh }`. -/
structure WObj where
  id : String
  geometry : GeomKind
  mesh : MeshState
deriving DecidableEq

/-- The payload of a `WORLD_STEP` message (`worldStepTick`). -/
structure WorldStepPayload where
  isFloorAnimating : Bool
  floorRotationX : ℚ
  endFloorRotationAngle : ℚ
  timeDelta : ℚ
  isRaining : Bool
  rainSpeedTimer : ℚ
deriving DecidableEq

/-- Messages the main thread posts to the worker. -/
inductive OutMsg where
  | ADD_OBJECTS (data : List (String × GeomKind × V3 × ℚ))
  | REMOVE_BODY (id : String) (reusable : Bool)
  | WORLD_STEP (payload : WorldStepPayload)
deriving DecidableEq

/-- Messages received from the worker, as dispatched by `worker.onmessage`.
`other` stands for any message whose `type` is none of the four handled
`WorkerEnum` values (the enum members are pairwise distinct values). -/
inductive InMsg where
  | RAPIER_READY
  | UPDATE_MESHES (buffer : Nat → ℚ) (ids : List String) (count : Nat)
  | ROTATE_FLOOR (newFloorRotationX : ℚ) (translation : V3) (rotation : Quat)
  | REMOVE_INACTIVES (ids : List String)
  | other

/-- The main-thread mutable state touched by the worker handlers and the render
loop. -/
structure MainState where
  worldObjects : List WObj
  meshPool : List WObj
  scene : List String
  disposed : List String
  floorPosition : V3
  floorQuaternion : Quat
  floorRotationX : ℚ
  isFloorAnimating : Bool
  endFloorRotationAngle : ℚ
  isRaining : Bool
  rainSpeedTimer : ℚ
  outbox : List OutMsg

/-- `worldObjects.get(id)`: first (and, keys being unique, only) entry holding
the key. -/
def mapGet : List WObj → String → Option WObj
  | [], _ => none
  | p :: rest, id => if p.id = id then some p else mapGet rest id

/-- `worldObjects.set(o.id, o)`: overwrite the entry holding the key if it
exists, else append (JS `Map` preserves insertion order and holds at most one
entry per key). -/
def mapSet : List WObj → WObj → List WObj
  | [], o => [o]
  | p :: rest, o => if p.id = o.id then o :: rest else p :: mapSet rest o

/-- `worldObjects.delete(id)`: remove the entry holding the key, if any. -/
def mapDelete : List WObj → String → List WObj
  | [], _ => []
  | p :: rest, id => if p.id = id then rest else p :: mapDelete rest id

/-- The keys of the `worldObjects` map. -/
def keys (wo : List WObj) : List String :=
  wo.map (fun o => o.id)

/-- Fresh data consumed by one `createMesh` call: the new mesh's id and its
random starting position and scale. -/
structure Fresh where
  id : String
  position : V3
  scale : ℚ

/-- Modelled from the spec: `createMesh` is defined in `lib/three-helper.ts`,
which is not among the sources (only its caller `main.ts` is). Per the spec's
description of the demo it builds a `{ id, geometry, mesh }` record of the
requested geometry kind with a fresh id and a random starting transform; the
fresh id and the random draws are passed explicitly as `f`. -/
def createMesh (kind : GeomKind) (f : Fresh) : WObj :=
  { id := f.id, geometry := kind,
    mesh := { position := f.position, quaternion := ⟨0, 0, 0, 1⟩,
              scale := f.scale, visible := true } }

/-- One iteration of the `initStartingObjects` creation loop: create a sphere,
register it in `worldObjects` under its own id, add it to the scene. -/
def initObjStep (freshes : Nat → Fresh) (s : MainState) (n : Nat) : MainState :=
  let o := createMesh GeomKind.sphere (freshes n)
  { s with worldObjects := mapSet s.worldObjects o, scene := s.scene ++ [o.id] }

/-- `initStartingObjects`: run the creation loop 20 times, then post one
`ADD_OBJECTS` message mapping over `worldObjects.values()` with each object's
id, geometry, `position.toArray()` and `scale.x`. `freshes n` supplies the data
of the `n`-th `createMesh` call. -/
def initStartingObjects (freshes : Nat → Fresh) (st : MainState) : MainState :=
  let st1 := (List.range 20).foldl (initObjStep freshes) st
  { st1 with outbox := st1.outbox ++
      [OutMsg.ADD_OBJECTS (st1.worldObjects.map (fun o =>
        (o.id, o.geometry, o.mesh.position, o.mesh.scale)))] }

/-- `udpateAndSyncMeshBodies` (typo as in the source): for `objIdx = 0 .. count-1`
read 7 consecutive floats (`i` advances by 7 every iteration, found or not) and,
if a mesh is registered under `ids[objIdx]`, set its position and quaternion.
The `sharedFloatArray` caching in the source is semantically a `Float32Array`
view of `buffer` and is elided: reads go to `buffer` directly.

`updateTransform` is the per-object write: position `x, y, z` from offsets
`7*objIdx .. 7*objIdx+2`, quaternion `x, y, z, w` from `7*objIdx+3 .. 7*objIdx+6`
(the source's running index `i` advances by exactly 7 each iteration). -/
def updateTransform (buffer : Nat → ℚ) (objIdx : Nat) (o : WObj) : WObj :=
  { o with mesh :=
      { o.mesh with
        position := ⟨buffer (7 * objIdx), buffer (7 * objIdx + 1), buffer (7 * objIdx + 2)⟩,
        quaternion := ⟨buffer (7 * objIdx + 3), buffer (7 * objIdx + 4),
                       buffer (7 * objIdx + 5), buffer (7 * objIdx + 6)⟩ } }

/-- The body of the `udpateAndSyncMeshBodies` loop for index `objIdx`: look up
`ids[objIdx]` and, if a mesh is registered, overwrite its transform with the
7 floats at offset `7 * objIdx`. -/
def syncStep (buffer : Nat → ℚ) (ids : List String) (acc : List WObj) (objIdx : Nat) :
    List WObj :=
  match mapGet acc (ids.getD objIdx "") with
  | some o => mapSet acc (updateTransform buffer objIdx o)
  | none => acc

def udpateAndSyncMeshBodies (buffer : Nat → ℚ) (ids : List String) (count : Nat)
    (wo : List WObj) : List WObj :=
  (List.range count).foldl (syncStep buffer ids) wo

/-- `updateAndRotateFloor`: store the new floor rotation angle and copy the
translation and rotation onto the floor mesh. -/
def updateAndRotateFloor (newFloorRotationX : ℚ) (translation : V3) (rotation : Quat)
    (st : MainState) : MainState :=
  { st with floorRotationX := newFloorRotationX,
            floorPosition := translation,
            floorQuaternion := rotation }

/-- One iteration of the `removeInactiveMeshBodies` loop body for a listed id:
if a matching entry exists, delete it from `worldObjects`, remove its mesh from
the scene and dispose it; otherwise do nothing. -/
def removeInactiveStep (s : MainState) (id : String) : MainState :=
  match mapGet s.worldObjects id with
  | some _ =>
    { s with worldObjects := mapDelete s.worldObjects id,
             scene := s.scene.erase id,
             disposed := s.disposed ++ [id] }
  | none => s

/-- `removeInactiveMeshBodies({ ids })`. -/
def removeInactiveMeshBodies (ids : List String) (st : MainState) : MainState :=
  ids.foldl removeInactiveStep st

/-- One iteration of the `checkAndRemoveFallingObjects` loop for the visited
entry `o`: if its mesh is at `y ≤ -20`, delete it from `worldObjects`, push
`{id, geometry, mesh}` onto `meshPool`, set the (shared) mesh invisible — so the
pooled record holds the now-invisible mesh — and post one `REMOVE_BODY` message
whose `reusable` field, initialised `false`, has been set to `true` before
posting. The scene and `disposeMesh` are not touched. -/
def fallingStep (s : MainState) (o : WObj) : MainState :=
  if o.mesh.position.y ≤ -20 then
    { s with worldObjects := mapDelete s.worldObjects o.id,
             meshPool := s.meshPool ++ [{ o with mesh := { o.mesh with visible := false } }],
             outbox := s.outbox ++ [OutMsg.REMOVE_BODY o.id true] }
  else s

/-- `checkAndRemoveFallingObjects`: `worldObjects.forEach(...)`. The JS
iteration visits the live map but only ever deletes the entry being visited, so
folding over the entry snapshot is equivalent. -/
def checkAndRemoveFallingObjects (st : MainState) : MainState :=
  st.worldObjects.foldl fallingStep st

/-- `worldStepTick(timeDelta)`: post one `WORLD_STEP` message with the time
delta and the current floor-animation and rain settings. -/
def worldStepTick (st : MainState) (timeDelta : ℚ) : MainState :=
  { st with outbox := st.outbox ++ [OutMsg.WORLD_STEP
      { isFloorAnimating := st.isFloorAnimating,
        floorRotationX := st.floorRotationX,
        endFloorRotationAngle := st.endFloorRotationAngle,
        timeDelta := timeDelta,
        isRaining := st.isRaining,
        rainSpeedTimer := st.rainSpeedTimer }] }

/-- `worker.onmessage`: the source is four sequential `if`s on `type`; the four
`WorkerEnum` values are pairwise distinct, so at most one branch fires and the
sequence is equivalent to this dispatch. A message of any other type reaches no
branch. -/
def onmessage (freshes : Nat → Fresh) (st : MainState) : InMsg → MainState
  | InMsg.RAPIER_READY => initStartingObjects freshes st
  | InMsg.UPDATE_MESHES buffer ids count =>
    { st with worldObjects := udpateAndSyncMeshBodies buffer ids count st.worldObjects }
  | InMsg.ROTATE_FLOOR a t r => updateAndRotateFloor a t r st
  | InMsg.REMOVE_INACTIVES ids => removeInactiveMeshBodies ids st
  | InMsg.other => st

/-- A sequence of worker messages processed in arrival order. -/
def processMessages (freshes : Nat → Fresh) (st : MainState) (msgs : List InMsg) : MainState :=
  msgs.foldl (onmessage freshes) st

/-- `const fpsCap = 240`. -/
def fpsCap : ℚ := 240

/-- `const fpsInterval = 1 / fpsCap`. -/
def fpsInterval : ℚ := 1 / fpsCap

/-- JavaScript `%` on nonnegative operands: `a - b * ⌊a / b⌋`. -/
def jsMod (a b : ℚ) : ℚ := a - b * ⌊a / b⌋

/-- The render loop's clock bookkeeping: `fpsDelta` and `deltaTime`. -/
structure TickState where
  fpsDelta : ℚ
  deltaTime : ℚ
deriving DecidableEq

/-- One `tick()` of the render loop, given this frame's `clock.getDelta()` and
`clock.getElapsedTime()` readings. Under the cap (`fpsDelta < fpsInterval`) the
body returns early having only accumulated `fpsDelta`; otherwise it updates the
clocks, posts the physics step (`worldStepTick`) and runs
`checkAndRemoveFallingObjects`, then renders. -/
def tick (st : MainState) (ts : TickState) (clockDelta elapsedTime : ℚ) :
    MainState × TickState :=
  let fd := ts.fpsDelta + clockDelta
  if fd < fpsInterval then (st, { ts with fpsDelta := fd })
  else
    let timeDelta := elapsedTime - ts.deltaTime
    let st1 := worldStepTick st timeDelta
    let st2 := checkAndRemoveFallingObjects st1
    (st2, { fpsDelta := jsMod fd fpsInterval, deltaTime := elapsedTime })

/-- Whether an outgoing message is a `WORLD_STEP`. -/
def isWorldStep : OutMsg → Bool
  | OutMsg.WORLD_STEP _ => true
  | _ => false

/-! ### Association-list (JS `Map`) lemmas -/

theorem mapGet_eq_some_id {wo : List WObj} {id : String} {o : WObj}
    (h : mapGet wo id = some o) : o.id = id := by
  induction wo with
  | nil => simp [mapGet] at h
  | cons p rest ih =>
    by_cases hp : p.id = id
    · simp only [mapGet, if_pos hp, Option.some.injEq] at h
      rw [← h]; exact hp
    · simp only [mapGet, if_neg hp] at h
      exact ih h

theorem mapGet_eq_none_iff (wo : List WObj) (id : String) :
    mapGet wo id = none ↔ id ∉ keys wo := by
  induction wo with
  | nil => simp [mapGet, keys]
  | cons p rest ih =>
    by_cases hp : p.id = id
    · simp [mapGet, keys, hp]
    · simp [mapGet, keys, hp, ih, Ne.symm hp]

theorem mapGet_mapSet_self (wo : List WObj) (o : WObj) :
    mapGet (mapSet wo o) o.id = some o := by
  induction wo with
  | nil => simp [mapGet, mapSet]
  | cons p rest ih =>
    by_cases hp : p.id = o.id
    · simp [mapGet, mapSet, hp]
    · simp [mapGet, mapSet, hp, ih]

theorem mapGet_mapSet_ne (wo : List WObj) (o : WObj) (id : String) (h : id ≠ o.id) :
    mapGet (mapSet wo o) id = mapGet wo id := by
  induction wo with
  | nil => simp [mapGet, mapSet, Ne.symm h]
  | cons p rest ih =>
    by_cases hp : p.id = o.id
    · have hpn : p.id ≠ id := by rw [hp]; exact Ne.symm h
      simp [mapGet, mapSet, hp, hpn, Ne.symm h]
    · by_cases hq : p.id = id <;> simp [mapGet, mapSet, hp, hq, ih, h]

theorem mapSet_of_not_mem (wo : List WObj) (o : WObj) (h : o.id ∉ keys wo) :
    mapSet wo o = wo ++ [o] := by
  induction wo with
  | nil => rfl
  | cons p rest ih =>
    simp only [keys, List.map_cons, List.mem_cons, not_or] at h
    have hp : p.id ≠ o.id := fun he => h.1 he.symm
    simp only [mapSet, if_neg hp, List.cons_append, List.cons.injEq, true_and]
    exact ih (by simpa [keys] using h.2)

theorem mapGet_mapDelete_ne (wo : List WObj) (id id' : String) (h : id' ≠ id) :
    mapGet (mapDelete wo id) id' = mapGet wo id' := by
  induction wo with
  | nil => simp [mapGet, mapDelete]
  | cons p rest ih =>
    by_cases hp : p.id = id
    · have hpn : p.id ≠ id' := by rw [hp]; exact Ne.symm h
      simp [mapGet, mapDelete, hp, hpn, Ne.symm h]
    · by_cases hq : p.id = id' <;> simp [mapGet, mapDelete, hp, hq, ih, h]

theorem mapGet_mapDelete_self (wo : List WObj) (id : String) (h : (keys wo).Nodup) :
    mapGet (mapDelete wo id) id = none := by
  induction wo with
  | nil => simp [mapGet, mapDelete]
  | cons p rest ih =>
    simp only [keys, List.map_cons, List.nodup_cons] at h
    by_cases hp : p.id = id
    · simp only [mapDelete, if_pos hp]
      rw [mapGet_eq_none_iff]
      rw [← hp]
      exact h.1
    · simp only [mapDelete, if_neg hp, mapGet, if_neg hp]
      exact ih h.2

theorem mapDelete_sublist (wo : List WObj) (id : String) :
    List.Sublist (mapDelete wo id) wo := by
  induction wo with
  | nil => simp [mapDelete]
  | cons p rest ih =>
    by_cases hp : p.id = id
    · simp only [mapDelete, if_pos hp]
      exact List.sublist_cons_self p rest
    · simp only [mapDelete, if_neg hp]
      exact ih.cons₂ p

theorem keys_nodup_mapDelete (wo : List WObj) (id : String) (h : (keys wo).Nodup) :
    (keys (mapDelete wo id)).Nodup := by
  unfold keys at h ⊢
  exact h.sublist ((mapDelete_sublist wo id).map (fun o => o.id))

/-! ### C1: the shared-buffer transform copy -/

theorem updateTransform_id (buffer : Nat → ℚ) (objIdx : Nat) (o : WObj) :
    (updateTransform buffer objIdx o).id = o.id := rfl

theorem sync_succ (buffer : Nat → ℚ) (ids : List String) (n : Nat) (wo : List WObj) :
    udpateAndSyncMeshBodies buffer ids (n + 1) wo =
      syncStep buffer ids (udpateAndSyncMeshBodies buffer ids n wo) n := by
  unfold udpateAndSyncMeshBodies
  rw [List.range_succ, List.foldl_append, List.foldl_cons, List.foldl_nil]

theorem sync_not_listed (buffer : Nat → ℚ) (ids : List String) (count : Nat)
    (wo : List WObj) (id : String)
    (h : ∀ i, i < count → ids.getD i "" ≠ id) :
    mapGet (udpateAndSyncMeshBodies buffer ids count wo) id = mapGet wo id := by
  induction count with
  | zero => rfl
  | succ n ih =>
    rw [sync_succ]
    have hacc := ih (fun i hi => h i (Nat.lt_succ_of_lt hi))
    cases hk : mapGet (udpateAndSyncMeshBodies buffer ids n wo) (ids.getD n "") with
    | none =>
      simp only [syncStep, hk]
      exact hacc
    | some o =>
      simp only [syncStep, hk]
      rw [mapGet_mapSet_ne]
      · exact hacc
      · rw [updateTransform_id, mapGet_eq_some_id hk]
        exact fun he => h n (Nat.lt_succ_self n) he.symm

theorem getD_mem_take {ids : List String} {i n : Nat} (hi : i < n) (hn : n ≤ ids.length) :
    ids.getD i "" ∈ ids.take n := by
  have hil : i < ids.length := lt_of_lt_of_le hi hn
  rw [List.getD_eq_getElem ids "" hil]
  have hlt : i < (ids.take n).length := by
    rw [List.length_take]; omega
  have he : (ids.take n)[i] = ids[i] := List.getElem_take ids
  rw [← he]
  exact List.getElem_mem hlt

theorem take_nodup_getD_inj {ids : List String} {count : Nat}
    (hnd : (ids.take count).Nodup) (hlen : count ≤ ids.length)
    {i j : Nat} (hi : i < count) (hj : j < count)
    (he : ids.getD i "" = ids.getD j "") : i = j := by
  have hil : i < ids.length := lt_of_lt_of_le hi hlen
  have hjl : j < ids.length := lt_of_lt_of_le hj hlen
  rw [List.getD_eq_getElem ids "" hil, List.getD_eq_getElem ids "" hjl] at he
  have hit : i < (ids.take count).length := by rw [List.length_take]; omega
  have hjt : j < (ids.take count).length := by rw [List.length_take]; omega
  have ht : (ids.take count)[i] = (ids.take count)[j] := by
    simp only [List.getElem_take]
    exact he
  exact List.Nodup.getElem_inj_iff hnd |>.mp ht

theorem sync_listed (buffer : Nat → ℚ) (ids : List String) (count : Nat) (wo : List WObj)
    (hlen : count ≤ ids.length) (hnd : (ids.take count).Nodup)
    (objIdx : Nat) (hobj : objIdx < count) :
    mapGet (udpateAndSyncMeshBodies buffer ids count wo) (ids.getD objIdx "") =
      Option.map (updateTransform buffer objIdx) (mapGet wo (ids.getD objIdx "")) := by
  induction count with
  | zero => omega
  | succ n ih =>
    rw [sync_succ]
    have hlen' : n ≤ ids.length := by omega
    have hnd' : (ids.take n).Nodup := by
      have h1 : List.Sublist ((ids.take (n + 1)).take n) (ids.take (n + 1)) :=
        List.take_sublist n _
      rw [List.take_take, Nat.min_eq_left (Nat.le_succ n)] at h1
      exact hnd.sublist h1
    rcases Nat.lt_succ_iff_lt_or_eq.mp hobj with hlt | heq
    · have hres := ih hlen' hnd' hlt
      have hnekey : ids.getD objIdx "" ≠ ids.getD n "" := by
        intro he
        have := take_nodup_getD_inj hnd hlen (by omega) (Nat.lt_succ_self n) he
        omega
      cases hk : mapGet (udpateAndSyncMeshBodies buffer ids n wo) (ids.getD n "") with
      | none =>
        simp only [syncStep, hk]
        exact hres
      | some o =>
        simp only [syncStep, hk]
        rw [mapGet_mapSet_ne]
        · exact hres
        · rw [updateTransform_id, mapGet_eq_some_id hk]
          exact hnekey
    · subst heq
      have hnotin : ∀ i, i < objIdx → ids.getD i "" ≠ ids.getD objIdx "" := by
        intro i hi he
        have := take_nodup_getD_inj hnd hlen (by omega) (Nat.lt_succ_self _) he
        omega
      have hacc := sync_not_listed buffer ids objIdx wo (ids.getD objIdx "") hnotin
      cases hw : mapGet wo (ids.getD objIdx "") with
      | none =>
        have hk : mapGet (udpateAndSyncMeshBodies buffer ids objIdx wo)
            (ids.getD objIdx "") = none := by rw [hacc, hw]
        simp only [syncStep, hk, hw, Option.map_none']
      | some o =>
        have hk : mapGet (udpateAndSyncMeshBodies buffer ids objIdx wo)
            (ids.getD objIdx "") = some o := by rw [hacc, hw]
        simp only [syncStep, hk, hw, Option.map_some]
        have hkey : (updateTransform buffer objIdx o).id = ids.getD objIdx "" := by
          rw [updateTransform_id]
          exact mapGet_eq_some_id hk
        rw [← hkey]
        exact mapGet_mapSet_self _ _

/-- C1: `udpateAndSyncMeshBodies` reads 7 consecutive floats per object at
stride 7 — position `x, y, z` then quaternion `x, y, z, w` — and for each
`objIdx < count` assigns them to the position and quaternion of the mesh stored
under `ids[objIdx]` in `worldObjects` (`updateTransform` reads exactly offsets
`7*objIdx .. 7*objIdx+6`); an index whose id has no registered mesh consumes its
7 floats and modifies nothing (the lookup stays `none`), and ids outside the
message are untouched. Stated for messages whose first `count` ids are the ids
of distinct objects (`count ≤ ids.length`, no duplicates), as the worker sends
them. -/
theorem udpateAndSyncMeshBodies_spec (buffer : Nat → ℚ) (ids : List String)
    (count : Nat) (wo : List WObj)
    (hlen : count ≤ ids.length) (hnd : (ids.take count).Nodup) :
    (∀ objIdx, objIdx < count →
      mapGet (udpateAndSyncMeshBodies buffer ids count wo) (ids.getD objIdx "") =
        Option.map (updateTransform buffer objIdx) (mapGet wo (ids.getD objIdx ""))) ∧
    (∀ id, id ∉ ids.take count →
      mapGet (udpateAndSyncMeshBodies buffer ids count wo) id = mapGet wo id) := by
  constructor
  · intro objIdx h
    exact sync_listed buffer ids count wo hlen hnd objIdx h
  · intro id hid
    apply sync_not_listed
    intro i hi he
    exact hid (he ▸ getD_mem_take hi hlen)

/-- A one-entry `worldObjects` map used by witnesses. -/
def demoWO : List WObj :=
  [⟨"a", GeomKind.sphere, ⟨⟨1, 1, 1⟩, ⟨0, 0, 0, 1⟩, 1, true⟩⟩]

/-- Witness for `udpateAndSyncMeshBodies_spec` at a concrete message. -/
theorem udpateAndSyncMeshBodies_spec_witness :
    2 ≤ (["a", "b"] : List String).length ∧
    ((["a", "b"] : List String).take 2).Nodup ∧
    mapGet (udpateAndSyncMeshBodies (fun _ => 0) ["a", "b"] 2 demoWO) "a" =
      some ⟨"a", GeomKind.sphere, ⟨⟨0, 0, 0⟩, ⟨0, 0, 0, 0⟩, 1, true⟩⟩ := by
  refine ⟨by simp, by simp, ?_⟩
  have h := (udpateAndSyncMeshBodies_spec (fun _ => 0) ["a", "b"] 2 demoWO
    (by simp) (by simp)).1 0 (by norm_num)
  rw [show (["a", "b"] : List String).getD 0 "" = "a" from rfl] at h
  rw [h]
  rfl

/-! ### C3: removal of fallen objects into the pool -/

theorem id_inj_of_keys_nodup {wo : List WObj} (hnd : (keys wo).Nodup)
    {p q : WObj} (hp : p ∈ wo) (hq : q ∈ wo) (he : p.id = q.id) : p = q := by
  unfold keys at hnd
  exact List.inj_on_of_nodup_map hnd hp hq he

theorem mapDelete_eq_filter (wo : List WObj) (id : String) (hnd : (keys wo).Nodup) :
    mapDelete wo id = wo.filter (fun p => decide (p.id ≠ id)) := by
  induction wo with
  | nil => rfl
  | cons p rest ih =>
    simp only [keys, List.map_cons, List.nodup_cons] at hnd
    by_cases hp : p.id = id
    · have hrest : ∀ q ∈ rest, q.id ≠ id := by
        intro q hq he
        apply hnd.1
        rw [← hp] at he
        exact he ▸ List.mem_map_of_mem (fun o => o.id) hq
      simp only [mapDelete, if_pos hp, List.filter_cons]
      rw [show (decide (p.id ≠ id)) = false by simp [hp]]
      simp only [Bool.false_eq_true, if_false]
      exact (List.filter_eq_self.mpr (fun q hq => by simp [hrest q hq])).symm
    · simp only [mapDelete, if_neg hp, List.filter_cons]
      rw [show (decide (p.id ≠ id)) = true by simp [hp], ih hnd.2]
      simp

/-- The `fallingStep` fold touches only `worldObjects`, `meshPool` and the
outbox: pool and outbox receive one entry per fallen object of the iterated
snapshot, in order; scene and disposals are untouched. -/
theorem falling_fold_effects (l : List WObj) (s : MainState) :
    (l.foldl fallingStep s).meshPool =
      s.meshPool ++ (l.filter (fun o => decide (o.mesh.position.y ≤ -20))).map
        (fun o => { o with mesh := { o.mesh with visible := false } }) ∧
    (l.foldl fallingStep s).outbox =
      s.outbox ++ (l.filter (fun o => decide (o.mesh.position.y ≤ -20))).map
        (fun o => OutMsg.REMOVE_BODY o.id true) ∧
    (l.foldl fallingStep s).scene = s.scene ∧
    (l.foldl fallingStep s).disposed = s.disposed := by
  induction l generalizing s with
  | nil => simp
  | cons o l' ih =>
    rw [List.foldl_cons]
    obtain ⟨h1, h2, h3, h4⟩ := ih (fallingStep s o)
    by_cases hf : o.mesh.position.y ≤ -20
    · refine ⟨?_, ?_, ?_, ?_⟩
      · rw [h1]; simp [fallingStep, hf, List.filter_cons]
      · rw [h2]; simp [fallingStep, hf, List.filter_cons]
      · rw [h3]; simp [fallingStep, hf]
      · rw [h4]; simp [fallingStep, hf]
    · refine ⟨?_, ?_, ?_, ?_⟩
      · rw [h1]; simp [fallingStep, hf, List.filter_cons]
      · rw [h2]; simp [fallingStep, hf, List.filter_cons]
      · rw [h3]; simp [fallingStep, hf]
      · rw [h4]; simp [fallingStep, hf]

/-- Folding `fallingStep` over a sublist `l` of the (nodup-keyed) map deletes
exactly the fallen members of `l`. -/
theorem falling_fold_worldObjects (l : List WObj) (s : MainState)
    (hnd : (keys s.worldObjects).Nodup) (hsub : List.Sublist l s.worldObjects) :
    (l.foldl fallingStep s).worldObjects =
      s.worldObjects.filter (fun p => decide (¬(p.mesh.position.y ≤ -20 ∧ p ∈ l))) := by
  induction l generalizing s with
  | nil => simp
  | cons o l' ih =>
    have hl' : List.Sublist l' s.worldObjects := (List.sublist_cons_self o l').trans hsub
    have hoin : o ∈ s.worldObjects := hsub.subset (List.mem_cons_self o l')
    rw [List.foldl_cons]
    by_cases hf : o.mesh.position.y ≤ -20
    · have hstep : (fallingStep s o).worldObjects = mapDelete s.worldObjects o.id := by
        simp [fallingStep, hf]
      have hnd' : (keys (fallingStep s o).worldObjects).Nodup := by
        rw [hstep]; exact keys_nodup_mapDelete _ _ hnd
      have hids : ∀ x ∈ l', x.id ≠ o.id := by
        have hkeys : (keys (o :: l')).Nodup := by
          unfold keys
          exact hnd.sublist (hsub.map (fun o => o.id))
        simp only [keys, List.map_cons, List.nodup_cons] at hkeys
        intro x hx he
        exact hkeys.1 (he ▸ List.mem_map_of_mem (fun o => o.id) hx)
      have hsub' : List.Sublist l' (fallingStep s o).worldObjects := by
        rw [hstep, mapDelete_eq_filter _ _ hnd]
        have hfl : l'.filter (fun p => decide (p.id ≠ o.id)) = l' :=
          List.filter_eq_self.mpr (fun x hx => by simpa using hids x hx)
        rw [← hfl]
        exact hl'.filter _
      rw [ih (fallingStep s o) hnd' hsub', hstep, mapDelete_eq_filter _ _ hnd,
        List.filter_filter]
      apply List.filter_congr
      intro p hp
      by_cases hpo : p = o
      · subst hpo
        simp [hf]
      · have hpid : p.id ≠ o.id := fun he => hpo (id_inj_of_keys_nodup hnd hp hoin he)
        simp [hpo, hpid]
    · have hstep : fallingStep s o = s := by
        simp [fallingStep, hf]
      rw [hstep, ih s hnd hl']
      apply List.filter_congr
      intro p hp
      by_cases hpo : p = o
      · subst hpo
        simp [hf]
      · simp [hpo]

/-- C3: when `checkAndRemoveFallingObjects` runs, every tracked object whose
mesh y-position is at most `-20` is removed from `worldObjects`, its
`{id, geometry, mesh}` entry is pushed onto the mesh pool with the mesh made
invisible, the mesh is neither removed from the scene nor disposed, and exactly
one `REMOVE_BODY` message with `reusable = true` is posted per such object;
objects above `-20` are left entirely unchanged (the map keeps them verbatim,
in order). Keys of the map are unique, as every registration uses the object's
own fresh id. -/
theorem checkAndRemoveFallingObjects_spec (st : MainState)
    (hnd : (keys st.worldObjects).Nodup) :
    (checkAndRemoveFallingObjects st).meshPool =
      st.meshPool ++ (st.worldObjects.filter (fun o => decide (o.mesh.position.y ≤ -20))).map
        (fun o => { o with mesh := { o.mesh with visible := false } }) ∧
    (checkAndRemoveFallingObjects st).outbox =
      st.outbox ++ (st.worldObjects.filter (fun o => decide (o.mesh.position.y ≤ -20))).map
        (fun o => OutMsg.REMOVE_BODY o.id true) ∧
    (checkAndRemoveFallingObjects st).scene = st.scene ∧
    (checkAndRemoveFallingObjects st).disposed = st.disposed ∧
    (checkAndRemoveFallingObjects st).worldObjects =
      st.worldObjects.filter (fun o => decide (¬ o.mesh.position.y ≤ -20)) := by
  obtain ⟨h1, h2, h3, h4⟩ := falling_fold_effects st.worldObjects st
  have hB := falling_fold_worldObjects st.worldObjects st hnd (List.Sublist.refl _)
  refine ⟨h1, h2, h3, h4, ?_⟩
  rw [show checkAndRemoveFallingObjects st = st.worldObjects.foldl fallingStep st from rfl]
  rw [hB]
  apply List.filter_congr
  intro p hp
  simp [hp]

/-- A base `MainState` for witnesses. -/
def baseState : MainState :=
  { worldObjects := [], meshPool := [], scene := [], disposed := [],
    floorPosition := ⟨0, 0, 0⟩, floorQuaternion := ⟨0, 0, 0, 1⟩, floorRotationX := 0,
    isFloorAnimating := false, endFloorRotationAngle := 0, isRaining := false,
    rainSpeedTimer := 5, outbox := [] }

/-- An object that has fallen below the floor. -/
def demoObjA : WObj := ⟨"a", GeomKind.sphere, ⟨⟨0, -30, 0⟩, ⟨0, 0, 0, 1⟩, 1, true⟩⟩

/-- An object still above the removal threshold. -/
def demoObjB : WObj := ⟨"b", GeomKind.sphere, ⟨⟨0, 5, 0⟩, ⟨0, 0, 0, 1⟩, 1, true⟩⟩

/-- A state tracking one fallen and one live object. -/
def demoFallSt : MainState :=
  { baseState with worldObjects := [demoObjA, demoObjB], scene := ["a", "b"] }

/-- Witness for `checkAndRemoveFallingObjects_spec` on a concrete state. -/
theorem checkAndRemoveFallingObjects_spec_witness :
    (keys demoFallSt.worldObjects).Nodup ∧
    (checkAndRemoveFallingObjects demoFallSt).outbox = [OutMsg.REMOVE_BODY "a" true] ∧
    (checkAndRemoveFallingObjects demoFallSt).worldObjects = [demoObjB] := by
  have hnd : (keys demoFallSt.worldObjects).Nodup := by
    simp [keys, demoFallSt, baseState, demoObjA, demoObjB]
  have h := checkAndRemoveFallingObjects_spec demoFallSt hnd
  have hA : ((-30 : ℚ) ≤ -20) := by norm_num
  have hB : ¬((5 : ℚ) ≤ -20) := by norm_num
  refine ⟨hnd, ?_, ?_⟩
  · rw [h.2.1]
    simp [demoFallSt, baseState, demoObjA, demoObjB, List.filter_cons, hA, hB]
  · rw [h.2.2.2.2]
    norm_num [demoFallSt, baseState, demoObjA, demoObjB, List.filter_cons]

/-! ### C6: removal of inactive objects -/

theorem mem_keys_mapDelete (wo : List WObj) (id i : String) (hnd : (keys wo).Nodup) :
    i ∈ keys (mapDelete wo id) ↔ i ∈ keys wo ∧ i ≠ id := by
  rw [mapDelete_eq_filter wo id hnd]
  unfold keys
  simp only [List.mem_map, List.mem_filter, decide_eq_true_eq]
  constructor
  · rintro ⟨o, ⟨ho, hoid⟩, rfl⟩
    exact ⟨⟨o, ho, rfl⟩, hoid⟩
  · rintro ⟨⟨o, ho, rfl⟩, hne⟩
    exact ⟨o, ⟨ho, hne⟩, rfl⟩

/-- C6: for every `REMOVE_INACTIVES` message, exactly the `worldObjects`
entries whose id appears in the message's id list are deleted, their meshes
removed from the scene and disposed; entries with unlisted ids and scene
objects not removed this way are unchanged (the filters keep them verbatim, in
order), a listed id with no matching entry has no effect, and the pool and the
outbox are untouched. Hypotheses: map keys, scene entries and the listed ids
are duplicate-free, as the program maintains them. -/
theorem removeInactiveMeshBodies_spec (ids : List String) (s : MainState)
    (hw : (keys s.worldObjects).Nodup) (hs : s.scene.Nodup) (hids : ids.Nodup) :
    (removeInactiveMeshBodies ids s).worldObjects =
      s.worldObjects.filter (fun o => decide (o.id ∉ ids)) ∧
    (removeInactiveMeshBodies ids s).scene =
      s.scene.filter (fun i => decide (¬(i ∈ ids ∧ i ∈ keys s.worldObjects))) ∧
    (removeInactiveMeshBodies ids s).disposed =
      s.disposed ++ ids.filter (fun i => decide (i ∈ keys s.worldObjects)) ∧
    (removeInactiveMeshBodies ids s).meshPool = s.meshPool ∧
    (removeInactiveMeshBodies ids s).outbox = s.outbox := by
  induction ids generalizing s with
  | nil => simp [removeInactiveMeshBodies]
  | cons id ids' ih =>
    obtain ⟨hid_notin, hids'⟩ := List.nodup_cons.mp hids
    rw [show removeInactiveMeshBodies (id :: ids') s =
      removeInactiveMeshBodies ids' (removeInactiveStep s id) from rfl]
    cases hma : mapGet s.worldObjects id with
    | none =>
      have hstep : removeInactiveStep s id = s := by
        simp [removeInactiveStep, hma]
      rw [hstep]
      obtain ⟨h1, h2, h3, h4, h5⟩ := ih s hw hs hids'
      have hknot : id ∉ keys s.worldObjects := (mapGet_eq_none_iff _ _).mp hma
      refine ⟨?_, ?_, ?_, h4, h5⟩
      · rw [h1]
        apply List.filter_congr
        intro o ho
        have hne : o.id ≠ id := fun he =>
          hknot (he ▸ List.mem_map_of_mem (fun o => o.id) ho)
        simp [hne]
      · rw [h2]
        apply List.filter_congr
        intro i hi
        by_cases hii : i = id
        · subst hii
          simp [hknot]
        · simp [hii]
      · rw [h3, List.filter_cons]
        rw [show (decide (id ∈ keys s.worldObjects)) = false by simp [hknot]]
        simp
    | some o =>
      have hkin : id ∈ keys s.worldObjects := by
        by_contra hc
        rw [← mapGet_eq_none_iff] at hc
        rw [hc] at hma
        exact Option.noConfusion hma
      have hWO : (removeInactiveStep s id).worldObjects = mapDelete s.worldObjects id := by
        simp [removeInactiveStep, hma]
      have hSC : (removeInactiveStep s id).scene = s.scene.erase id := by
        simp [removeInactiveStep, hma]
      have hDI : (removeInactiveStep s id).disposed = s.disposed ++ [id] := by
        simp [removeInactiveStep, hma]
      have hPO : (removeInactiveStep s id).meshPool = s.meshPool := by
        simp [removeInactiveStep, hma]
      have hOB : (removeInactiveStep s id).outbox = s.outbox := by
        simp [removeInactiveStep, hma]
      obtain ⟨h1, h2, h3, h4, h5⟩ := ih (removeInactiveStep s id)
        (by rw [hWO]; exact keys_nodup_mapDelete _ _ hw)
        (by rw [hSC]; exact hs.erase id) hids'
      rw [hWO] at h1 h2 h3
      rw [hSC] at h2
      rw [hDI] at h3
      rw [hPO] at h4
      rw [hOB] at h5
      refine ⟨?_, ?_, ?_, h4, h5⟩
      · rw [h1, mapDelete_eq_filter _ _ hw, List.filter_filter]
        apply List.filter_congr
        intro p hp
        by_cases hpi : p.id = id
        · simp [hpi]
        · simp [hpi]
      · rw [h2, hs.erase_eq_filter, List.filter_filter]
        apply List.filter_congr
        intro i hi
        by_cases hii : i = id
        · subst hii
          simp [hkin]
        · have hmem := mem_keys_mapDelete s.worldObjects id i hw
          simp [hii, hmem]
      · rw [h3]
        have hfl : ids'.filter (fun i => decide (i ∈ keys (mapDelete s.worldObjects id))) =
            ids'.filter (fun i => decide (i ∈ keys s.worldObjects)) := by
          apply List.filter_congr
          intro i hi
          have hii : i ≠ id := fun he => hid_notin (he ▸ hi)
          have hmem := mem_keys_mapDelete s.worldObjects id i hw
          simp [hmem, hii]
        rw [hfl, List.filter_cons]
        rw [show (decide (id ∈ keys s.worldObjects)) = true by simp [hkin]]
        simp

/-- A state used by the `REMOVE_INACTIVES` witness: one removable object, one
that stays, and a scene containing both. -/
def demoInactiveSt : MainState :=
  { baseState with worldObjects := [demoObjA, demoObjB], scene := ["a", "b"] }

/-- Witness for `removeInactiveMeshBodies_spec`: removing ids `["a", "x"]`
(where `"x"` matches nothing) deletes exactly `"a"` from the map and scene and
disposes exactly `"a"`. -/
theorem removeInactiveMeshBodies_spec_witness :
    (keys demoInactiveSt.worldObjects).Nodup ∧ demoInactiveSt.scene.Nodup ∧
      (["a", "x"] : List String).Nodup ∧
    (removeInactiveMeshBodies ["a", "x"] demoInactiveSt).worldObjects = [demoObjB] ∧
    (removeInactiveMeshBodies ["a", "x"] demoInactiveSt).scene = ["b"] ∧
    (removeInactiveMeshBodies ["a", "x"] demoInactiveSt).disposed = ["a"] := by
  have hw : (keys demoInactiveSt.worldObjects).Nodup := by
    simp [keys, demoInactiveSt, baseState, demoObjA, demoObjB]
  have hs : demoInactiveSt.scene.Nodup := by
    simp [demoInactiveSt, baseState]
  have hids : (["a", "x"] : List String).Nodup := by
    simp
  have h := removeInactiveMeshBodies_spec ["a", "x"] demoInactiveSt hw hs hids
  refine ⟨hw, hs, hids, ?_, ?_, ?_⟩
  · rw [h.1]
    simp [demoInactiveSt, baseState, demoObjA, demoObjB]
  · rw [h.2.1]
    simp [demoInactiveSt, baseState, keys, demoObjA, demoObjB]
  · rw [h.2.2.1]
    simp [demoInactiveSt, baseState, keys, demoObjA, demoObjB]

/-! ### C2: message dispatch -/

/-- C2: every message received from the worker is dispatched solely by its
`type` field — `RAPIER_READY` triggers creation of the initial objects,
`UPDATE_MESHES` the shared-buffer transform copy, `ROTATE_FLOOR` the floor
transform update, `REMOVE_INACTIVES` mesh removal — and a message with any
other type leaves the main-thread state unchanged. -/
theorem onmessage_dispatch (freshes : Nat → Fresh) (st : MainState) :
    onmessage freshes st InMsg.RAPIER_READY = initStartingObjects freshes st ∧
    (∀ buffer ids count, onmessage freshes st (InMsg.UPDATE_MESHES buffer ids count) =
      { st with worldObjects := udpateAndSyncMeshBodies buffer ids count st.worldObjects }) ∧
    (∀ a t r, onmessage freshes st (InMsg.ROTATE_FLOOR a t r) =
      updateAndRotateFloor a t r st) ∧
    (∀ ids, onmessage freshes st (InMsg.REMOVE_INACTIVES ids) =
      removeInactiveMeshBodies ids st) ∧
    onmessage freshes st InMsg.other = st :=
  ⟨rfl, fun _ _ _ => rfl, fun _ _ _ => rfl, fun _ => rfl, rfl⟩

/-! ### C4: initial objects appear only on RAPIER_READY -/

/-- Whether an outgoing message is an `ADD_OBJECTS`. -/
def isAddObjects : OutMsg → Bool
  | OutMsg.ADD_OBJECTS _ => true
  | _ => false

theorem init_fold (freshes : Nat → Fresh) (l : List Nat) (s : MainState)
    (hdisj : ∀ n ∈ l, (freshes n).id ∉ keys s.worldObjects)
    (hinj : (l.map (fun n => (freshes n).id)).Nodup) :
    (l.foldl (initObjStep freshes) s).worldObjects =
      s.worldObjects ++ l.map (fun n => createMesh GeomKind.sphere (freshes n)) ∧
    (l.foldl (initObjStep freshes) s).outbox = s.outbox := by
  induction l generalizing s with
  | nil => simp
  | cons n l' ih =>
    simp only [List.map_cons, List.nodup_cons] at hinj
    rw [List.foldl_cons]
    have hset : (initObjStep freshes s n).worldObjects =
        s.worldObjects ++ [createMesh GeomKind.sphere (freshes n)] := by
      unfold initObjStep
      exact mapSet_of_not_mem _ _ (hdisj n (List.mem_cons_self n l'))
    have hob : (initObjStep freshes s n).outbox = s.outbox := rfl
    have hdisj' : ∀ m ∈ l', (freshes m).id ∉ keys (initObjStep freshes s n).worldObjects := by
      intro m hm
      rw [hset]
      unfold keys
      rw [List.map_append, List.mem_append]
      rintro (hin | hin)
      · exact hdisj m (List.mem_cons_of_mem n hm) hin
      · apply hinj.1
        have : (freshes m).id = (freshes n).id := by simpa [createMesh] using hin
        rw [← this]
        exact List.mem_map_of_mem (fun k => (freshes k).id) hm
    obtain ⟨h1, h2⟩ := ih (initObjStep freshes s n) hdisj' hinj.2
    refine ⟨?_, by rw [h2, hob]⟩
    rw [h1, hset]
    simp

/-- Applying any sequence of worker messages containing no `RAPIER_READY` to a
state whose object map is empty keeps the map empty and the outbox unchanged. -/
theorem no_ready_no_objects (freshes : Nat → Fresh) (msgs : List InMsg) :
    ∀ st : MainState, st.worldObjects = [] →
      (∀ m ∈ msgs, m ≠ InMsg.RAPIER_READY) →
      (processMessages freshes st msgs).worldObjects = [] ∧
      (processMessages freshes st msgs).outbox = st.outbox := by
  induction msgs with
  | nil => intro st h _; exact ⟨h, rfl⟩
  | cons m msgs' ih =>
    intro st h hnr
    have hm := hnr m (List.mem_cons_self m msgs')
    have hstep : (onmessage freshes st m).worldObjects = [] ∧
        (onmessage freshes st m).outbox = st.outbox := by
      cases m with
      | RAPIER_READY => exact absurd rfl hm
      | UPDATE_MESHES buffer ids count =>
        constructor
        · show udpateAndSyncMeshBodies buffer ids count st.worldObjects = []
          rw [h]
          clear h hm hnr ih
          induction count with
          | zero => rfl
          | succ n ihc => rw [sync_succ, ihc]; rfl
        · rfl
      | ROTATE_FLOOR a t r => exact ⟨h, rfl⟩
      | REMOVE_INACTIVES ids =>
        have hfix : removeInactiveMeshBodies ids st = st := by
          clear hm hnr ih
          induction ids with
          | nil => rfl
          | cons i ids' ihi =>
            show removeInactiveMeshBodies ids' (removeInactiveStep st i) = st
            have : removeInactiveStep st i = st := by
              unfold removeInactiveStep
              rw [h]
              rfl
            rw [this]
            exact ihi
        exact ⟨by rw [show onmessage freshes st (InMsg.REMOVE_INACTIVES ids) =
            removeInactiveMeshBodies ids st from rfl, hfix, h],
          by rw [show onmessage freshes st (InMsg.REMOVE_INACTIVES ids) =
            removeInactiveMeshBodies ids st from rfl, hfix]⟩
      | other => exact ⟨h, rfl⟩
    have := ih (onmessage freshes st m) hstep.1
      (fun x hx => hnr x (List.mem_cons_of_mem m hx))
    exact ⟨this.1, by rw [show processMessages freshes st (m :: msgs') =
      processMessages freshes (onmessage freshes st m) msgs' from rfl, this.2, hstep.2]⟩

/-- C4: the initial 20 sphere objects are created, registered and announced
only by the `RAPIER_READY` handler. When that handler runs (on the initial
empty map, with the 20 fresh mesh ids pairwise distinct) it registers exactly
20 spheres and posts exactly one message — an `ADD_OBJECTS` carrying each
object's id, geometry, position and scale; and processing any sequence of
worker messages containing no `RAPIER_READY` from a state with an empty
`worldObjects` map leaves the map empty and posts nothing, in particular no
`ADD_OBJECTS`. -/
theorem initStartingObjects_spec (freshes : Nat → Fresh) (st : MainState)
    (hempty : st.worldObjects = [])
    (hinj : ((List.range 20).map (fun n => (freshes n).id)).Nodup) :
    (onmessage freshes st InMsg.RAPIER_READY).worldObjects =
      (List.range 20).map (fun n => createMesh GeomKind.sphere (freshes n)) ∧
    (onmessage freshes st InMsg.RAPIER_READY).worldObjects.length = 20 ∧
    (∀ o ∈ (onmessage freshes st InMsg.RAPIER_READY).worldObjects,
      o.geometry = GeomKind.sphere) ∧
    (onmessage freshes st InMsg.RAPIER_READY).outbox =
      st.outbox ++ [OutMsg.ADD_OBJECTS ((List.range 20).map (fun n =>
        ((freshes n).id, GeomKind.sphere, (freshes n).position, (freshes n).scale)))] ∧
    (∀ msgs : List InMsg, (∀ m ∈ msgs, m ≠ InMsg.RAPIER_READY) →
      (processMessages freshes st msgs).worldObjects = [] ∧
      (processMessages freshes st msgs).outbox = st.outbox) := by
  have hdisj : ∀ n ∈ List.range 20, (freshes n).id ∉ keys st.worldObjects := by
    intro n _
    rw [hempty]
    simp [keys]
  obtain ⟨h1, h2⟩ := init_fold freshes (List.range 20) st hdisj hinj
  have hwo : (onmessage freshes st InMsg.RAPIER_READY).worldObjects =
      (List.range 20).map (fun n => createMesh GeomKind.sphere (freshes n)) := by
    show (initStartingObjects freshes st).worldObjects = _
    unfold initStartingObjects
    rw [h1, hempty]
    simp
  refine ⟨hwo, ?_, ?_, ?_, ?_⟩
  · rw [hwo]; simp
  · rw [hwo]
    intro o ho
    obtain ⟨n, _, rfl⟩ := List.mem_map.mp ho
    rfl
  · show (List.foldl (initObjStep freshes) st (List.range 20)).outbox ++
      [OutMsg.ADD_OBJECTS
        (((List.foldl (initObjStep freshes) st (List.range 20)).worldObjects).map
          (fun o => (o.id, o.geometry, o.mesh.position, o.mesh.scale)))] = _
    rw [h2, h1, hempty]
    simp [createMesh]
  · intro msgs hnr
    exact no_ready_no_objects freshes msgs st hempty hnr

/-- Fresh-mesh source used by the C4 witness: distinct ids of growing length. -/
def demoFreshes (n : Nat) : Fresh :=
  ⟨String.mk (List.replicate n 'a'), ⟨0, 10, 0⟩, 1⟩

/-- Witness for `initStartingObjects_spec` at a concrete fresh-id source. -/
theorem initStartingObjects_spec_witness :
    baseState.worldObjects = [] ∧
    ((List.range 20).map (fun n => (demoFreshes n).id)).Nodup ∧
    (onmessage demoFreshes baseState InMsg.RAPIER_READY).worldObjects.length = 20 :=
  ⟨rfl, by decide,
    (initStartingObjects_spec demoFreshes baseState rfl (by decide)).2.1⟩

/-! ### C5: physics stepping is delegated via WORLD_STEP messages -/

/-- C5: the main thread never steps the physics itself — each render tick in
which the accumulated frame delta reaches `fpsInterval` posts exactly one
`WORLD_STEP` message (the only physics interaction), carrying the elapsed-time
delta and the current floor-animation and rain settings; a tick under the cap
changes nothing but the accumulator and posts nothing. -/
theorem tick_spec (st : MainState) (ts : TickState) (clockDelta elapsedTime : ℚ) :
    (ts.fpsDelta + clockDelta < fpsInterval →
      tick st ts clockDelta elapsedTime =
        (st, { ts with fpsDelta := ts.fpsDelta + clockDelta })) ∧
    (fpsInterval ≤ ts.fpsDelta + clockDelta →
      (tick st ts clockDelta elapsedTime).1.outbox.countP isWorldStep =
        st.outbox.countP isWorldStep + 1 ∧
      OutMsg.WORLD_STEP
        { isFloorAnimating := st.isFloorAnimating,
          floorRotationX := st.floorRotationX,
          endFloorRotationAngle := st.endFloorRotationAngle,
          timeDelta := elapsedTime - ts.deltaTime,
          isRaining := st.isRaining,
          rainSpeedTimer := st.rainSpeedTimer } ∈
        (tick st ts clockDelta elapsedTime).1.outbox) := by
  constructor
  · intro hlt
    unfold tick
    rw [if_pos hlt]
  · intro hge
    unfold tick
    rw [if_neg (not_lt.mpr hge)]
    have heff := (falling_fold_effects
      (worldStepTick st (elapsedTime - ts.deltaTime)).worldObjects
      (worldStepTick st (elapsedTime - ts.deltaTime))).2.1
    have hck : checkAndRemoveFallingObjects (worldStepTick st (elapsedTime - ts.deltaTime)) =
        (worldStepTick st (elapsedTime - ts.deltaTime)).worldObjects.foldl fallingStep
          (worldStepTick st (elapsedTime - ts.deltaTime)) := rfl
    constructor
    · show List.countP isWorldStep
        (checkAndRemoveFallingObjects (worldStepTick st (elapsedTime - ts.deltaTime))).outbox =
        List.countP isWorldStep st.outbox + 1
      rw [hck, heff]
      simp [worldStepTick, List.countP_append, List.countP_map, isWorldStep,
        Function.comp]
    · show OutMsg.WORLD_STEP
        { isFloorAnimating := st.isFloorAnimating,
          floorRotationX := st.floorRotationX,
          endFloorRotationAngle := st.endFloorRotationAngle,
          timeDelta := elapsedTime - ts.deltaTime,
          isRaining := st.isRaining,
          rainSpeedTimer := st.rainSpeedTimer } ∈
        (checkAndRemoveFallingObjects (worldStepTick st (elapsedTime - ts.deltaTime))).outbox
      rw [hck, heff]
      simp [worldStepTick]

/-- Witness for `tick_spec`: a tick whose accumulated delta reaches the cap
posts its step message. -/
theorem tick_spec_witness :
    fpsInterval ≤ (0 : ℚ) + 1 ∧
    (tick baseState ⟨0, 0⟩ 1 1).1.outbox.countP isWorldStep =
      baseState.outbox.countP isWorldStep + 1 := by
  have hge : fpsInterval ≤ (0 : ℚ) + 1 := by
    norm_num [fpsInterval, fpsCap]
  exact ⟨hge, ((tick_spec baseState ⟨0, 0⟩ 1 1).2 (by simpa using hge)).1⟩

end BouncyBois

/-! ## C7: linear setup, then a render loop that does no further setup

Each demo script is a linear sequence of top-level statements followed by the
first invocation of its render-loop function; the loop body re-schedules itself
with `requestAnimationFrame`. The statements are embedded as an action list,
one action per top-level statement (or contiguous group of statements of the
same kind), in source order; the loop body is the list of actions its function
performs per frame. -/

namespace Demos

/-- The kinds of statements the three demo scripts execute. -/
inductive Action where
  | loadAsset       -- texture/font loader calls
  | buildScene      -- constructing geometries, materials, meshes, lights, renderer; adding to the scene
  | attachCamera
  | attachControls
  | guiSetup        -- lil-gui / stats panels
  | registerHandler -- worker.onmessage, resize listeners
  | timerUpdate     -- Timer/Clock bookkeeping
  | controlsUpdate
  | render
  | requestFrame
  | statsBegin
  | statsEnd
  | postWorldStep   -- worldStepTick: posting WORLD_STEP to the worker
  | fallingCheck    -- checkAndRemoveFallingObjects
deriving DecidableEq

/-- Whether an action is setup work (asset loading or scene/camera/controls/
GUI/handler construction) as opposed to per-frame work. -/
def isSetupAction : Action → Bool
  | Action.loadAsset => true
  | Action.buildScene => true
  | Action.attachCamera => true
  | Action.attachControls => true
  | Action.guiSetup => true
  | Action.registerHandler => true
  | _ => false

/-- Haunted-house demo (`src/unnamed/part_000`), top-level statements in source
order: GUI, scene + axes helper, eleven texture loads, house/floor/bushes/
lights construction, resize listener, camera, controls, renderer. -/
def hauntedSetup : List Action :=
  [Action.guiSetup, Action.buildScene,
   Action.loadAsset, Action.loadAsset, Action.loadAsset, Action.loadAsset,
   Action.loadAsset, Action.loadAsset, Action.loadAsset,
   Action.loadAsset, Action.loadAsset, Action.loadAsset, Action.loadAsset,
   Action.buildScene,
   Action.registerHandler,
   Action.attachCamera, Action.attachControls,
   Action.buildScene]

/-- Haunted-house `tick()` body: timer update, controls update, render,
re-schedule. -/
def hauntedTickBody : List Action :=
  [Action.timerUpdate, Action.controlsUpdate, Action.render, Action.requestFrame]

/-- The haunted-house script: all setup, then the first `tick()`. -/
def hauntedScript : List Action := hauntedSetup ++ hauntedTickBody

/-- Bouncy-balls demo (`src/bouncy-bois/src/main.ts`), top-level statements in
source order: worker + stats + `ThreeCanvas` (scene, camera, renderer,
controls), GUI wiring, `worker.onmessage` registration, floor mesh, resize
listener. -/
def bouncySetup : List Action :=
  [Action.buildScene,
   Action.guiSetup,
   Action.registerHandler,
   Action.buildScene,
   Action.registerHandler]

/-- Bouncy-balls `tick()` body (the full, not-early-returning path):
re-schedule, stats, clock bookkeeping, controls update, post the physics step,
falling-object check, render, stats. The early-returning path performs the
prefix up to the clock bookkeeping only. -/
def bouncyTickBody : List Action :=
  [Action.requestFrame, Action.statsBegin, Action.timerUpdate,
   Action.controlsUpdate, Action.postWorldStep, Action.fallingCheck,
   Action.render, Action.statsEnd]

/-- The bouncy-balls script: all setup, then the first `tick()`. -/
def bouncyScript : List Action := bouncySetup ++ bouncyTickBody

/-- Font demo (`src/fontloading-texture`), top-level statements in source
order: canvas/scene/axes, matcap texture load, torus group placement, font load
(initiated here; its callback adds the text mesh when it resolves), camera,
renderer, controls. -/
def fontSetup : List Action :=
  [Action.buildScene, Action.loadAsset, Action.buildScene, Action.loadAsset,
   Action.attachCamera, Action.buildScene, Action.attachControls]

/-- Font demo `animate()` body: render, controls update, re-schedule. -/
def fontTickBody : List Action :=
  [Action.render, Action.controlsUpdate, Action.requestFrame]

/-- The font-demo script: all setup, then the first `animate()`. -/
def fontScript : List Action := fontSetup ++ fontTickBody

/-- C7: in each of the three demos, asset loading is initiated and the scene
graph, camera and controls are constructed before the first frame of the render
loop is requested (no `requestFrame` occurs among the setup actions, and the
script is exactly setup followed by the loop body), and the render loop
performs only control updates, rendering and clock/stats bookkeeping — plus, in
the bouncy-balls demo, posting the physics step and the falling-object check —
never further setup work. -/
theorem demo_scripts_linear :
    (hauntedScript = hauntedSetup ++ hauntedTickBody ∧
      hauntedSetup.all (fun a => decide (a ≠ Action.requestFrame)) = true ∧
      hauntedTickBody.all (fun a => !(isSetupAction a)) = true) ∧
    (bouncyScript = bouncySetup ++ bouncyTickBody ∧
      bouncySetup.all (fun a => decide (a ≠ Action.requestFrame)) = true ∧
      bouncyTickBody.all (fun a => !(isSetupAction a)) = true) ∧
    (fontScript = fontSetup ++ fontTickBody ∧
      fontSetup.all (fun a => decide (a ≠ Action.requestFrame)) = true ∧
      fontTickBody.all (fun a => !(isSetupAction a)) = true) := by
  decide

end Demos

end Animations
